import Mathlib

/-!
Verification of the client-side reconciliation layer of the Financial
Insight document-analysis platform (React frontend).

Modelling conventions for the shallow embedding of the JavaScript source:
JS strings are lists of Unicode code points (`List Nat`), with ASCII models
of `toLowerCase`/`toUpperCase`; JS numbers that carry sentiment scores are
rationals; absent/`undefined` object fields are `Option`; the JS `||`
fallback chain on strings (where the empty string is falsy) is `jsOrS`.
-/

namespace FinInsight

/-- JS strings, modelled as lists of Unicode code points. -/
abbrev Str := List Nat

/-- Code-point list of a Lean string literal, used for concrete inputs. -/
def codes (s : String) : Str := s.toList.map Char.toNat

/-- ASCII model of `String.prototype.toLowerCase` on one code point. -/
def lowerChar (n : Nat) : Nat := if 65 ≤ n ∧ n ≤ 90 then n + 32 else n

/-- ASCII model of `String.prototype.toUpperCase` on one code point. -/
def upperChar (n : Nat) : Nat := if 97 ≤ n ∧ n ≤ 122 then n - 32 else n

/-- `s.toLowerCase()`. -/
def toLowerStr (s : Str) : Str := s.map lowerChar

/-- The regex character class `\w`, i.e. `[A-Za-z0-9_]`. -/
def isWordChar (n : Nat) : Bool :=
  decide ((65 ≤ n ∧ n ≤ 90) ∨ (97 ≤ n ∧ n ≤ 122) ∨ (48 ≤ n ∧ n ≤ 57) ∨ n = 95)

/-- `s.replace(/_/g, ' ')` (code point 95 is the underscore, 32 the space). -/
def replaceUnderscores (s : Str) : Str := s.map (fun n => if n = 95 then 32 else n)

/-- `s.replace(/\b\w/g, l => l.toUpperCase())`: uppercase every word character
not preceded by a word character; `prevWord` says whether the previous
character was a word character. -/
def titleCaseFrom (prevWord : Bool) : Str → Str
  | [] => []
  | c :: rest =>
      (if isWordChar c && !prevWord then upperChar c else c) :: titleCaseFrom (isWordChar c) rest

/-- The title-casing step of `ClauseExtraction.jsx` line 47. -/
def titleCaseJS (s : Str) : Str := titleCaseFrom false s

/-- Does `pat` occur in `s` starting exactly at position `i`? -/
def matchAt (s pat : Str) (i : Nat) : Bool := (s.drop i).take pat.length == pat

/-- JS `s.indexOf(pat, start)`: the smallest match position `≥ start`,
`none` standing for JS `-1`. -/
def indexOfFrom (s pat : Str) (start : Nat) : Option Nat :=
  (List.range (s.length + 1)).find? (fun i => decide (start ≤ i) && matchAt s pat i)

/-- JS `s.includes(pat)`. -/
def containsStr (s pat : Str) : Bool :=
  (List.range (s.length + 1)).any (fun i => matchAt s pat i)

/-- JS `a || b` where `a` is an optional string and the empty string is falsy. -/
def jsOrS : Option Str → Str → Str
  | some s, d => if s.isEmpty then d else s
  | none, d => d

/-- One raw extraction/clause object as read by the frontend; `cls` stands
for the JS field `class` (a reserved word in Lean). -/
structure Extraction where
  extraction_class : Option Str := none
  type : Option Str := none
  cls : Option Str := none
  extraction_text : Option Str := none
  text : Option Str := none
  attributes : Option (List (Str × Str)) := none
deriving DecidableEq

/-- One entry of `data.results` (multi-model backend shape);
`json_output_text` models `modelResult.json_output?.text`. -/
structure ModelResult where
  extractions : Option (List Extraction) := none
  json_output_text : Option Str := none
deriving DecidableEq

/-- The legacy nested `data.langextract` object. -/
structure Langextract where
  clauses : Option (List Extraction) := none
deriving DecidableEq

/-- The clause-extraction payload as consumed by `ClauseExtraction.jsx`:
`results` is the insertion-ordered object `modelName -> ModelResult`. -/
structure ClausePayload where
  results : Option (List (Str × ModelResult)) := none
  clauses : Option (List Extraction) := none
  langextract : Option Langextract := none
  text : Option Str := none
deriving DecidableEq

/-- A normalized clause as produced by `processedData` in
`ClauseExtraction.jsx` (lines 60-66). -/
structure Clause where
  type : Str
  text : Str
  importance : Str
  confidence : Str
  attributes : List (Str × Str)
deriving DecidableEq

/-- The value of `processedData` in `ClauseExtraction.jsx`. -/
structure ProcessedClauses where
  clauses : List Clause
  totalClauses : Nat
  text : Str
deriving DecidableEq

/-- Association-list field access on a modelled JS object. -/
def lookupField (k : Str) : List (Str × Str) → Option Str
  | [] => none
  | (k', v) :: rest => if k' = k then some v else lookupField k rest

/-- The `||` fallback chain `ext.extraction_class || ext.type || ext.class
|| 'General Clause'` used identically in `ClauseExtraction.jsx` line 47 and
`AnalysisCharts.jsx` line 62. -/
def resolveType (e : Extraction) : Str :=
  jsOrS e.extraction_class (jsOrS e.type (jsOrS e.cls (codes "General Clause")))

/-- Clause importance as computed in `ClauseExtraction.jsx` lines 46-58:
the raw type is underscore-spaced and title-cased, lower-cased again, then
matched against the fixed keyword sets. -/
def ceImportance (rawType : Str) : Str :=
  let typeLower := toLowerStr (titleCaseJS (replaceUnderscores rawType))
  if containsStr typeLower (codes "liability") || containsStr typeLower (codes "termination") ||
     containsStr typeLower (codes "indemnity") || containsStr typeLower (codes "payment") ||
     containsStr typeLower (codes "dispute") then codes "high"
  else if containsStr typeLower (codes "confidentiality") || containsStr typeLower (codes "warranty") ||
     containsStr typeLower (codes "governing") || containsStr typeLower (codes "interest") then
    codes "medium"
  else codes "low"

/-- The risk tier assigned to one raw clause type inside `riskData` of
`AnalysisCharts.jsx` lines 62-71: the raw type is lower-cased directly,
then matched against the keyword sets. -/
def chartRiskTier (rawType : Str) : Str :=
  let type := toLowerStr rawType
  if containsStr type (codes "liability") || containsStr type (codes "termination") ||
     containsStr type (codes "indemnity") || containsStr type (codes "payment") ||
     containsStr type (codes "dispute") then codes "high"
  else if containsStr type (codes "confidentiality") || containsStr type (codes "warranty") ||
     containsStr type (codes "governing") || containsStr type (codes "interest") then
    codes "medium"
  else codes "low"

/-- The per-extraction mapping of `processedData` (`ClauseExtraction.jsx`
lines 46-67). -/
def mapClause (ext : Extraction) : Clause :=
  { type := titleCaseJS (replaceUnderscores (resolveType ext))
    text := jsOrS ext.extraction_text (jsOrS ext.text (codes "No text available"))
    importance := ceImportance (resolveType ext)
    confidence := jsOrS (ext.attributes.bind (lookupField (codes "confidence"))) (codes "medium")
    attributes := ext.attributes.getD [] }

/-- The clause filter of `processedData` (`ClauseExtraction.jsx` lines 70-75). -/
def clauseOk (c : Clause) : Bool :=
  !c.text.isEmpty && !(toLowerStr c.text == codes "null") &&
    !(c.text == codes "No text available") && decide (5 < c.text.length)

/-- `processedData` of `ClauseExtraction.jsx` (lines 9-84). -/
def processedClauseData (data : ClausePayload) : ProcessedClauses :=
  if data.clauses = none ∧ data.results = none ∧ data.langextract = none then
    { clauses := [], totalClauses := 0, text := [] }
  else
    let fullText0 := jsOrS data.text []
    let fullText :=
      match data.results with
      | some results =>
          if fullText0.isEmpty then
            match results.head? with
            | some (_, mr) => jsOrS mr.json_output_text []
            | none => fullText0
          else fullText0
      | none => fullText0
    let rawClauses :=
      match data.results with
      | some results => results.flatMap (fun p => p.2.extractions.getD [])
      | none =>
          match data.clauses with
          | some cl => cl
          | none =>
              match data.langextract with
              | some le => le.clauses.getD []
              | none => []
    let filtered := (rawClauses.map mapClause).filter clauseOk
    { clauses := filtered, totalClauses := filtered.length, text := fullText }

/-! Sentiment normalization, `SentimentAnalysis.jsx`. -/

/-- Association-list lookup for the `average_scores` object. -/
def lookupScore (k : Str) : List (Str × ℚ) → Option ℚ
  | [] => none
  | (k', v) :: rest => if k' = k then some v else lookupScore k rest

/-- The `statistics` object of the sentiment payload (fields read by the
frontend). -/
structure SentStats where
  overall_sentiment : Option Str := none
  average_scores : Option (List (Str × ℚ)) := none
deriving DecidableEq

/-- One entry of `sentence_results`. -/
structure SentenceResult where
  text : Str := []
  label : Option Str := none
  score : Option ℚ := none
deriving DecidableEq

/-- The sentiment payload as consumed by `SentimentAnalysis.jsx`. -/
structure SentimentPayload where
  statistics : Option SentStats := none
  sentence_results : Option (List SentenceResult) := none
deriving DecidableEq

/-- One mapped sentence of `processedData` (`SentimentAnalysis.jsx`
lines 21-25). -/
structure MappedSentence where
  text : Str
  sentiment : Str
  score : ℚ
deriving DecidableEq

/-- The value of `processedData` in `SentimentAnalysis.jsx`. -/
structure SentimentRecord where
  overallSentiment : Str
  score : ℚ
  confidence : ℚ
  sentenceAnalysis : List MappedSentence
deriving DecidableEq

/-- `processedData` of `SentimentAnalysis.jsx` (lines 8-36). -/
def processedSentiment (data : SentimentPayload) : SentimentRecord :=
  if data.statistics = none ∧ data.sentence_results = none then
    { overallSentiment := codes "neutral", score := 0, confidence := 0, sentenceAnalysis := [] }
  else
    let mapped := (data.sentence_results.getD []).map (fun s =>
      { text := s.text
        sentiment := toLowerStr (jsOrS s.label (codes "neutral"))
        score := s.score.getD 0 : MappedSentence })
    let overallScore : ℚ :=
      ((data.statistics.bind SentStats.average_scores).bind (fun avg =>
        (data.statistics.bind SentStats.overall_sentiment).bind (fun k =>
          lookupScore k avg))).getD 0
    { overallSentiment := toLowerStr (jsOrS (data.statistics.bind SentStats.overall_sentiment) (codes "neutral"))
      score := overallScore
      confidence := overallScore
      sentenceAnalysis := mapped }

/-! Chat session, `Chatbot.jsx`. -/

/-- Message author. -/
inductive Sender
  | user
  | bot
deriving DecidableEq

/-- One transcript entry (timestamps, irrelevant to the claims, omitted). -/
structure ChatMessage where
  id : Nat
  text : Str
  sender : Sender
deriving DecidableEq

/-- One uploaded document as recorded by `handleFileUpload`. -/
structure UploadedDoc where
  name : Str
  size : Nat
  url : Str
deriving DecidableEq

/-- The chat state owned by `ChatbotPage`. -/
structure ChatState where
  messages : List ChatMessage
  uploadedDocs : List UploadedDoc
deriving DecidableEq

/-- JS whitespace for `String.prototype.trim` (ASCII part). -/
def isWsCode (n : Nat) : Bool :=
  decide (n = 32 ∨ n = 9 ∨ n = 10 ∨ n = 13 ∨ n = 12 ∨ n = 11)

/-- `s.trim()`. -/
def trimJS (s : Str) : Str :=
  ((s.dropWhile isWsCode).reverse.dropWhile isWsCode).reverse

/-- The greeting installed by `handleClearChat` (Chatbot.jsx line 128). -/
def clearGreeting : Str :=
  codes "Chat cleared. Hello! I'm RAG, your financial document assistant. Upload a document to get started!"

/-- The no-document bot reply (Chatbot.jsx line 89). -/
def uploadPrompt : Str :=
  codes "Please upload a document first so I can answer questions about it. Click the upload button below!"

/-- `handleClearChat` (Chatbot.jsx lines 124-134). -/
def handleClearChat : ChatState :=
  { messages := [{ id := 1, text := clearGreeting, sender := .bot }], uploadedDocs := [] }

/-- `handleSendMessage` (Chatbot.jsx lines 70-96), settled after the
simulated 500 ms delay of the no-document path.  The returned `Bool` is
whether `queryRAG` was called; on that network path the transcript gains a
bot message whose content comes from the network response and is outside
this model, so only the flag is reported. -/
def handleSendMessage (st : ChatState) (input : Str) : ChatState × Bool :=
  if (trimJS input).isEmpty then (st, false)
  else
    let userMessage : ChatMessage := { id := st.messages.length + 1, text := input, sender := .user }
    let afterUser := st.messages ++ [userMessage]
    if st.uploadedDocs.length = 0 then
      let botMessage : ChatMessage := { id := st.messages.length + 2, text := uploadPrompt, sender := .bot }
      ({ messages := afterUser ++ [botMessage], uploadedDocs := st.uploadedDocs }, false)
    else
      ({ messages := afterUser, uploadedDocs := st.uploadedDocs }, true)

/-! Interactive viewer state machine, `InteractiveClauseViewer`
(src/unnamed/part_001). -/

/-- The auto-play-relevant state of `InteractiveClauseViewer`. -/
structure ViewerState where
  activeClauseIndex : Int
  playing : Bool
deriving DecidableEq

/-- One firing of the auto-play interval (src/unnamed/part_001 lines
44-63). The interval only exists while `isPlaying` and the filtered list is
non-empty, so the state is unchanged otherwise; `prev >= sortedClauses.length - 1`
stops playback keeping the index, else the index advances by one. -/
def autoPlayTick (sortedLen : Nat) (s : ViewerState) : ViewerState :=
  if s.playing ∧ 0 < sortedLen then
    if (sortedLen : Int) - 1 ≤ s.activeClauseIndex then
      { activeClauseIndex := s.activeClauseIndex, playing := false }
    else
      { activeClauseIndex := s.activeClauseIndex + 1, playing := s.playing }
  else s

/-! Chart data builders, `AnalysisCharts.jsx`. -/

/-- One raw NER entity (fields read by the frontend). -/
structure NerEntity where
  text : Str := []
  label : Option Str := none
  type : Option Str := none
deriving DecidableEq

/-- The `data.ner` payload. -/
structure NerPayload where
  entities : Option (List NerEntity) := none
deriving DecidableEq

/-- The analysis bundle as consumed by `AnalysisCharts.jsx` (the `finbert`
field feeds only the sentiment chart, not needed by any claim here). -/
structure ChartsPayload where
  ner : Option NerPayload := none
  langextract : Option Langextract := none
deriving DecidableEq

/-- One slice of the risk pie (`riskData` entries, with their fixed colors). -/
structure RiskEntry where
  name : Str
  value : Nat
  color : Str
deriving DecidableEq

/-- One slice of the entity pie (`entityData` entries). -/
structure EntityEntry where
  name : Str
  value : Nat
deriving DecidableEq

/-- The `riskLevels` fold of `riskData` (`AnalysisCharts.jsx` lines 58-72):
the (High, Medium, Low) counters after the `forEach`. -/
def riskCounts (clauses : List Extraction) : Nat × Nat × Nat :=
  clauses.foldl (fun acc c =>
    let t := toLowerStr (resolveType c)
    if containsStr t (codes "liability") || containsStr t (codes "termination") ||
       containsStr t (codes "indemnity") || containsStr t (codes "payment") ||
       containsStr t (codes "dispute") then (acc.1 + 1, acc.2.1, acc.2.2)
    else if containsStr t (codes "confidentiality") || containsStr t (codes "warranty") ||
       containsStr t (codes "governing") || containsStr t (codes "interest") then
      (acc.1, acc.2.1 + 1, acc.2.2)
    else (acc.1, acc.2.1, acc.2.2 + 1)) (0, 0, 0)

/-- `riskData` of `AnalysisCharts.jsx` (lines 55-82). -/
def riskData (data : ChartsPayload) : List RiskEntry :=
  match data.langextract with
  | none => []
  | some le =>
      match le.clauses with
      | none => []
      | some cls =>
          let counts := riskCounts cls
          if counts.1 + counts.2.1 + counts.2.2 = 0 then []
          else
            ([⟨codes "High Risk", counts.1, codes "#ef4444"⟩,
              ⟨codes "Medium Risk", counts.2.1, codes "#f59e0b"⟩,
              ⟨codes "Low Risk", counts.2.2, codes "#10b981"⟩] : List RiskEntry).filter
              (fun item => decide (0 < item.value))

/-- JS `counts[e.label]` in `entityData`: an absent (`undefined`) `label` is
coerced to the property key `"undefined"`. -/
def entityKey (e : NerEntity) : Str :=
  match e.label with
  | some s => s
  | none => codes "undefined"

/-- `counts[k] = (counts[k] || 0) + 1` on an insertion-ordered JS object,
modelled as an association list. -/
def bump : List (Str × Nat) → Str → List (Str × Nat)
  | [], k => [(k, 1)]
  | (k', v) :: rest, k => if k' = k then (k', v + 1) :: rest else (k', v) :: bump rest k

/-- The `counts` object built by the `forEach` of `entityData`
(`AnalysisCharts.jsx` lines 17-20). -/
def tally (es : List NerEntity) : List (Str × Nat) :=
  es.foldl (fun acc e => bump acc (entityKey e)) []

/-- Association-list lookup, used to reason about the `counts` object. -/
def lookupV (k : Str) : List (Str × Nat) → Option Nat
  | [] => none
  | (k', v) :: rest => if k' = k then some v else lookupV k rest

/-- The property keys of the modelled `counts` object, in insertion order. -/
def keysOf (m : List (Str × Nat)) : List Str := m.map Prod.fst

/-- The descending-by-value comparator of `entityData` line 28 (JS sort is
stable, as is insertion sort). -/
def valueDesc (a b : EntityEntry) : Prop := b.value ≤ a.value

instance : DecidableRel valueDesc := fun a b => inferInstanceAs (Decidable (b.value ≤ a.value))

instance : IsTotal EntityEntry valueDesc := ⟨fun a b => Nat.le_total b.value a.value⟩

instance : IsTrans EntityEntry valueDesc := ⟨fun _ _ _ h1 h2 => Nat.le_trans h2 h1⟩

/-- `entityData` of `AnalysisCharts.jsx` (lines 15-30). -/
def entityData (data : ChartsPayload) : List EntityEntry :=
  match data.ner with
  | none => []
  | some nerP =>
      match nerP.entities with
      | none => []
      | some es =>
          ((List.insertionSort valueDesc
            ((tally es).map (fun p => (⟨p.1, p.2⟩ : EntityEntry)))).take 10)

/-- The distribution as claim C9 words it, for comparison with `entityData`:
the grouping key falls back to the entity's `type` when `label` is absent
(the claim leaves the both-absent case unsaid; it is not exercised). -/
def entityKeyClaimed (e : NerEntity) : Str :=
  match e.label with
  | some s => s
  | none =>
      match e.type with
      | some t => t
      | none => codes "undefined"

/-- The tally of `entityData`, but grouped by `entityKeyClaimed`. -/
def tallyClaimed (es : List NerEntity) : List (Str × Nat) :=
  es.foldl (fun acc e => bump acc (entityKeyClaimed e)) []

/-- The full entity distribution as claim C9 words it (same count, sort and
truncation, but with the claimed grouping key). -/
def entityDataClaimed (data : ChartsPayload) : List EntityEntry :=
  match data.ner with
  | none => []
  | some nerP =>
      match nerP.entities with
      | none => []
      | some es =>
          ((List.insertionSort valueDesc
            ((tallyClaimed es).map (fun p => (⟨p.1, p.2⟩ : EntityEntry)))).take 10)

/-! Clause span resolver / highlighted-text renderer,
`renderHighlightedText` in src/unnamed/part_001. -/

/-- A highlight span `[startOffset, endOffset)` into the document text. -/
structure Span where
  startOffset : Nat
  endOffset : Nat
deriving DecidableEq

/-- What one emitted highlight contributes to the rendering: the gap text
pushed before it (possibly empty, in which case no gap element is pushed),
its span, and the highlighted text. -/
structure Emitted where
  gap : Str
  span : Span
  hl : Str
deriving DecidableEq

/-- JS `text.substring(a, b)` for `a ≤ b`. -/
def jsSubstring (t : Str) (a b : Nat) : Str := (t.drop a).take (b - a)

/-- The `displayStart` of one `renderHighlightedText` loop iteration
(src/unnamed/part_001 lines 124-138): `startIndex = text.indexOf(clause.text,
lastIndex)`, `absoluteIndex = text.indexOf(clause.text)`; skip when the text
never occurs, or when `displayStart` falls before the cursor. -/
def stepDisplay (text pat : Str) (cursor : Nat) : Option Nat :=
  match indexOfFrom text pat 0 with
  | none => none
  | some j =>
      let d := (indexOfFrom text pat cursor).getD j
      if d < cursor then none else some d

/-- The `sortedClauses.forEach` loop of `renderHighlightedText` (lines
115-162): emitted highlights in order, plus the final `lastIndex`. -/
def renderWalk (text : Str) : Nat → List Clause → List Emitted × Nat
  | cursor, [] => ([], cursor)
  | cursor, c :: rest =>
      match stepDisplay text c.text cursor with
      | none => renderWalk text cursor rest
      | some d =>
          let stop := d + c.text.length
          let next := renderWalk text stop rest
          (⟨jsSubstring text cursor d, ⟨d, stop⟩, jsSubstring text d stop⟩ :: next.1, next.2)

/-- Sort key of the `sortedClauses` comparator: `text.indexOf(c.text)`
(every clause kept by the filter does occur, so the default is irrelevant). -/
def indexKey (text : Str) (c : Clause) : Nat := (indexOfFrom text c.text 0).getD 0

/-- `sortedClauses` of `InteractiveClauseViewer` (lines 19-36): keep clauses
whose text occurs in the document, stably sort by first occurrence, then
apply the search and type filters. -/
def sortedClauses (text : Str) (clauses : List Clause) (searchTerm filterType : Str) : List Clause :=
  let base := @List.insertionSort Clause (fun a b => indexKey text a ≤ indexKey text b)
    (fun a b => Nat.decLe (indexKey text a) (indexKey text b))
    (clauses.filter (fun c => !c.text.isEmpty && containsStr text c.text))
  let searched :=
    if searchTerm.isEmpty then base
    else base.filter (fun c =>
      containsStr (toLowerStr c.text) (toLowerStr searchTerm) ||
      containsStr (toLowerStr c.type) (toLowerStr searchTerm))
  if filterType == codes "all" then searched
  else searched.filter (fun c => c.type == filterType)

/-- The rendered text of one emitted highlight: the gap element is pushed
only when the gap is non-empty (line 141), then the highlight element. -/
def segsOf (em : Emitted) : List Str :=
  (if em.gap.isEmpty then [] else [em.gap]) ++ [em.hl]

/-- The spans highlighted by `renderHighlightedText` for the current
search/filter state. -/
def renderSpans (text : Str) (clauses : List Clause) (searchTerm filterType : Str) : List Span :=
  ((renderWalk text 0 (sortedClauses text clauses searchTerm filterType)).1).map Emitted.span

/-- The text contents of the elements produced by `renderHighlightedText`,
in order: gaps, highlights, and the trailing remainder (lines 115-169);
empty document text renders a placeholder instead, modelled as `[]`. -/
def renderSegments (text : Str) (clauses : List Clause) (searchTerm filterType : Str) : List Str :=
  if text.isEmpty then []
  else
    let w := renderWalk text 0 (sortedClauses text clauses searchTerm filterType)
    (w.1.flatMap segsOf) ++ (if w.2 < text.length then [text.drop w.2] else [])

/-! Helper lemmas: case and underscore handling. -/

theorem lowerChar_upperChar (n : Nat) : lowerChar (upperChar n) = lowerChar n := by
  unfold lowerChar upperChar
  split_ifs <;> omega

theorem toLowerStr_titleCaseFrom (b : Bool) (s : Str) :
    toLowerStr (titleCaseFrom b s) = toLowerStr s := by
  induction s generalizing b with
  | nil => rfl
  | cons c rest ih =>
      simp only [titleCaseFrom, toLowerStr, List.map_cons]
      rw [show lowerChar (if isWordChar c && !b then upperChar c else c) = lowerChar c by
            split
            · exact lowerChar_upperChar c
            · rfl]
      exact congrArg _ (ih (isWordChar c))

theorem toLowerStr_replaceUnderscores (s : Str) :
    toLowerStr (replaceUnderscores s) = replaceUnderscores (toLowerStr s) := by
  simp only [toLowerStr, replaceUnderscores, List.map_map]
  congr 1
  funext n
  simp only [Function.comp_apply]
  unfold lowerChar
  split_ifs <;> omega

theorem replaceUnderscores_eq_self (pat : Str) (h95 : ¬ 95 ∈ pat) :
    replaceUnderscores pat = pat := by
  induction pat with
  | nil => rfl
  | cons p ps ih =>
      simp only [List.mem_cons, not_or] at h95
      simp only [replaceUnderscores, List.map_cons]
      rw [if_neg (fun h => h95.1 h.symm)]
      exact congrArg _ (ih h95.2)

theorem eq_of_replaceUnderscores_eq (l pat : Str) (h32 : ¬ 32 ∈ pat)
    (he : replaceUnderscores l = pat) : l = pat := by
  induction l generalizing pat with
  | nil => simpa [replaceUnderscores] using he
  | cons c l ih =>
      cases pat with
      | nil => simp [replaceUnderscores] at he
      | cons p ps =>
          simp only [replaceUnderscores, List.map_cons, List.cons.injEq] at he
          simp only [List.mem_cons, not_or] at h32
          have hc : c = p := by
            by_cases hc95 : c = 95
            · rw [if_pos hc95] at he
              exact absurd he.1 h32.1
            · rw [if_neg hc95] at he
              exact he.1
          rw [hc, ih ps h32.2 he.2]

theorem matchAt_replaceUnderscores (s pat : Str) (h32 : ¬ 32 ∈ pat) (h95 : ¬ 95 ∈ pat)
    (i : Nat) : matchAt (replaceUnderscores s) pat i = matchAt s pat i := by
  have hdt : ((replaceUnderscores s).drop i).take pat.length
      = replaceUnderscores ((s.drop i).take pat.length) := by
    simp only [replaceUnderscores, List.map_drop, List.map_take]
  unfold matchAt
  rw [hdt]
  by_cases hx : (s.drop i).take pat.length = pat
  · simp [hx, replaceUnderscores_eq_self pat h95]
  · have hnx : ¬ replaceUnderscores ((s.drop i).take pat.length) = pat :=
      fun he => hx (eq_of_replaceUnderscores_eq _ pat h32 he)
    simp [beq_iff_eq, hx, hnx]

theorem containsStr_replaceUnderscores (s pat : Str) (h32 : ¬ 32 ∈ pat) (h95 : ¬ 95 ∈ pat) :
    containsStr (replaceUnderscores s) pat = containsStr s pat := by
  unfold containsStr
  rw [show (replaceUnderscores s).length = s.length from List.length_map s _]
  congr 1
  funext i
  exact matchAt_replaceUnderscores s pat h32 h95 i

/-! C1: the importance classification agrees between the chart aggregator
and the clause list. -/

/-- C1: for every raw clause type string the importance computed by
`ClauseExtraction.jsx` (underscore-spacing, title-casing, lower-casing,
keyword matching) coincides with the risk tier computed by
`AnalysisCharts.jsx` (direct lower-casing, same keywords); in particular
"Termination Clause" is high, "Confidentiality Agreement" is medium and
"Notice Provision" is low. -/
theorem c1_importance_agreement :
    (∀ t : Str, ceImportance t = chartRiskTier t) ∧
    ceImportance (codes "Termination Clause") = codes "high" ∧
    ceImportance (codes "Confidentiality Agreement") = codes "medium" ∧
    ceImportance (codes "Notice Provision") = codes "low" := by
  refine ⟨?_, by decide, by decide, by decide⟩
  intro t
  have e1 := containsStr_replaceUnderscores (toLowerStr t) (codes "liability") (by decide) (by decide)
  have e2 := containsStr_replaceUnderscores (toLowerStr t) (codes "termination") (by decide) (by decide)
  have e3 := containsStr_replaceUnderscores (toLowerStr t) (codes "indemnity") (by decide) (by decide)
  have e4 := containsStr_replaceUnderscores (toLowerStr t) (codes "payment") (by decide) (by decide)
  have e5 := containsStr_replaceUnderscores (toLowerStr t) (codes "dispute") (by decide) (by decide)
  have e6 := containsStr_replaceUnderscores (toLowerStr t) (codes "confidentiality") (by decide) (by decide)
  have e7 := containsStr_replaceUnderscores (toLowerStr t) (codes "warranty") (by decide) (by decide)
  have e8 := containsStr_replaceUnderscores (toLowerStr t) (codes "governing") (by decide) (by decide)
  have e9 := containsStr_replaceUnderscores (toLowerStr t) (codes "interest") (by decide) (by decide)
  simp only [ceImportance, chartRiskTier, titleCaseJS, toLowerStr_titleCaseFrom,
    toLowerStr_replaceUnderscores, e1, e2, e3, e4, e5, e6, e7, e8, e9]

/-! C2: shape-invariance of the clause normalizer. -/

/-- C2: the three clause payload shapes (multi-model `results`, flat
`clauses`, legacy `langextract.clauses`) carrying the same extraction list
produce identical normalized clause lists. -/
theorem c2_clause_shape_invariance (L : List Extraction) (mname : Str)
    (jt : Option Str) (t : Option Str) :
    (processedClauseData
        { results := some [(mname, { extractions := some L, json_output_text := jt })],
          text := t }).clauses
      = (processedClauseData { clauses := some L, text := t }).clauses
    ∧ (processedClauseData { clauses := some L, text := t }).clauses
      = (processedClauseData { langextract := some { clauses := some L }, text := t }).clauses := by
  constructor <;> simp [processedClauseData]

/-! C5: sentiment default record. -/

/-- C5: a sentiment payload with neither `statistics` nor `sentence_results`
normalizes to the neutral/zero record (and, the normalizer being a total
function, never to an error). -/
theorem c5_sentiment_default (d : SentimentPayload)
    (h1 : d.statistics = none) (h2 : d.sentence_results = none) :
    processedSentiment d =
      { overallSentiment := codes "neutral", score := 0, confidence := 0,
        sentenceAnalysis := [] } := by
  unfold processedSentiment
  rw [if_pos ⟨h1, h2⟩]

theorem c5_sentiment_default_witness :
    processedSentiment {} =
      { overallSentiment := codes "neutral", score := 0, confidence := 0,
        sentenceAnalysis := [] } :=
  c5_sentiment_default {} rfl rfl

/-! C6: auto-play state machine. -/

/-- C6: with 3 filtered clauses and index 0, three timer firings leave the
index at 2 with playback stopped; in general, while playing, a tick below
the last index advances by one, and a tick at or past the last index stops
playback retaining the index (no wraparound). -/
theorem c6_autoplay :
    autoPlayTick 3 (autoPlayTick 3 (autoPlayTick 3 ⟨0, true⟩)) = ⟨2, false⟩ ∧
    (∀ (s : ViewerState) (n : Nat), s.playing = true → 0 < n →
        s.activeClauseIndex < (n : Int) - 1 →
        autoPlayTick n s = ⟨s.activeClauseIndex + 1, true⟩) ∧
    (∀ (s : ViewerState) (n : Nat), s.playing = true → 0 < n →
        (n : Int) - 1 ≤ s.activeClauseIndex →
        autoPlayTick n s = ⟨s.activeClauseIndex, false⟩) := by
  refine ⟨by decide, ?_, ?_⟩
  · intro s n hp hn hlt
    unfold autoPlayTick
    rw [if_pos ⟨hp, hn⟩, if_neg (by omega), hp]
  · intro s n hp hn hge
    unfold autoPlayTick
    rw [if_pos ⟨hp, hn⟩, if_pos hge]

theorem c6_autoplay_witness :
    autoPlayTick 3 ⟨0, true⟩ = ⟨1, true⟩ ∧ autoPlayTick 3 ⟨2, true⟩ = ⟨2, false⟩ :=
  ⟨c6_autoplay.2.1 ⟨0, true⟩ 3 rfl (by decide) (by decide),
   c6_autoplay.2.2 ⟨2, true⟩ 3 rfl (by decide) (by decide)⟩

/-! C7: chat session, no-document query and empty-input no-op. -/

/-- C7: after `clear()` and with no uploaded documents, sending a non-blank
query appends the user message and then exactly one bot upload prompt, with
no network call; a blank (empty or whitespace-only) query changes nothing
and makes no call. -/
theorem c7_chat_no_document :
    (∀ input : Str, (trimJS input).isEmpty = false →
        handleSendMessage handleClearChat input =
          ({ messages := [⟨1, clearGreeting, .bot⟩, ⟨2, input, .user⟩, ⟨3, uploadPrompt, .bot⟩],
             uploadedDocs := [] }, false)) ∧
    (∀ (st : ChatState) (input : Str), (trimJS input).isEmpty = true →
        handleSendMessage st input = (st, false)) := by
  constructor
  · intro input h
    simp [handleSendMessage, handleClearChat, h]
  · intro st input h
    simp [handleSendMessage, h]

theorem c7_chat_no_document_witness :
    handleSendMessage handleClearChat (codes "What is this?") =
      ({ messages := [⟨1, clearGreeting, .bot⟩, ⟨2, codes "What is this?", .user⟩,
                      ⟨3, uploadPrompt, .bot⟩],
         uploadedDocs := [] }, false) ∧
    handleSendMessage handleClearChat (codes "   ") = (handleClearChat, false) :=
  ⟨c7_chat_no_document.1 (codes "What is this?") (by decide),
   c7_chat_no_document.2 handleClearChat (codes "   ") (by decide)⟩

/-! C4: the clause filter invariant. -/

/-- C4: no clause with empty text, text "null" (case-insensitive), text
"No text available", or text shorter than 6 characters survives
normalization into the delivered clause list. -/
theorem c4_clause_filter_invariant (data : ClausePayload) (c : Clause)
    (hc : c ∈ (processedClauseData data).clauses) :
    c.text ≠ [] ∧ toLowerStr c.text ≠ codes "null" ∧
    c.text ≠ codes "No text available" ∧ 6 ≤ c.text.length := by
  have hok : clauseOk c = true := by
    unfold processedClauseData at hc
    split at hc
    · simp at hc
    · exact (List.mem_filter.mp hc).2
  simp only [clauseOk, Bool.and_eq_true, Bool.not_eq_true', beq_eq_false_iff_ne, ne_eq,
    decide_eq_true_eq, List.isEmpty_eq_false] at hok
  exact ⟨hok.1.1.1, hok.1.1.2, hok.1.2, by omega⟩

theorem c4_clause_filter_invariant_witness :
    (mapClause { text := some (codes "The Liability Clause limits damages") }).text ≠ [] ∧
    toLowerStr (mapClause { text := some (codes "The Liability Clause limits damages") }).text
      ≠ codes "null" ∧
    (mapClause { text := some (codes "The Liability Clause limits damages") }).text
      ≠ codes "No text available" ∧
    6 ≤ (mapClause { text := some (codes "The Liability Clause limits damages") }).text.length :=
  c4_clause_filter_invariant
    { clauses := some [{ text := some (codes "The Liability Clause limits damages") }] }
    (mapClause { text := some (codes "The Liability Clause limits damages") })
    (by decide)

/-! C8: the risk distribution. -/

theorem riskFold_eq_countP (cls : List Extraction) (acc : Nat × Nat × Nat) :
    cls.foldl (fun acc c =>
      let t := toLowerStr (resolveType c)
      if containsStr t (codes "liability") || containsStr t (codes "termination") ||
         containsStr t (codes "indemnity") || containsStr t (codes "payment") ||
         containsStr t (codes "dispute") then (acc.1 + 1, acc.2.1, acc.2.2)
      else if containsStr t (codes "confidentiality") || containsStr t (codes "warranty") ||
         containsStr t (codes "governing") || containsStr t (codes "interest") then
        (acc.1, acc.2.1 + 1, acc.2.2)
      else (acc.1, acc.2.1, acc.2.2 + 1)) acc
    = (acc.1 + cls.countP (fun c => chartRiskTier (resolveType c) == codes "high"),
       acc.2.1 + cls.countP (fun c => chartRiskTier (resolveType c) == codes "medium"),
       acc.2.2 + cls.countP (fun c => chartRiskTier (resolveType c) == codes "low")) := by
  have b1 : ((codes "high" : Str) == codes "high") = true := by decide
  have b2 : ((codes "high" : Str) == codes "medium") = false := by decide
  have b3 : ((codes "high" : Str) == codes "low") = false := by decide
  have b4 : ((codes "medium" : Str) == codes "high") = false := by decide
  have b5 : ((codes "medium" : Str) == codes "medium") = true := by decide
  have b6 : ((codes "medium" : Str) == codes "low") = false := by decide
  have b7 : ((codes "low" : Str) == codes "high") = false := by decide
  have b8 : ((codes "low" : Str) == codes "medium") = false := by decide
  have b9 : ((codes "low" : Str) == codes "low") = true := by decide
  induction cls generalizing acc with
  | nil => simp
  | cons c cls ih =>
      rw [List.foldl_cons, List.countP_cons, List.countP_cons, List.countP_cons, ih]
      by_cases h1 : (containsStr (toLowerStr (resolveType c)) (codes "liability") ||
          containsStr (toLowerStr (resolveType c)) (codes "termination") ||
          containsStr (toLowerStr (resolveType c)) (codes "indemnity") ||
          containsStr (toLowerStr (resolveType c)) (codes "payment") ||
          containsStr (toLowerStr (resolveType c)) (codes "dispute")) = true
      · have ht : chartRiskTier (resolveType c) = codes "high" := by
          simp only [chartRiskTier]
          rw [if_pos h1]
        refine Prod.ext ?_ (Prod.ext ?_ ?_) <;>
          simp [h1, ht, b1, b2, b3] <;> omega
      · by_cases h2 : (containsStr (toLowerStr (resolveType c)) (codes "confidentiality") ||
            containsStr (toLowerStr (resolveType c)) (codes "warranty") ||
            containsStr (toLowerStr (resolveType c)) (codes "governing") ||
            containsStr (toLowerStr (resolveType c)) (codes "interest")) = true
        · have ht : chartRiskTier (resolveType c) = codes "medium" := by
            simp only [chartRiskTier]
            rw [if_neg (by simp [h1]), if_pos h2]
          refine Prod.ext ?_ (Prod.ext ?_ ?_) <;>
            simp [h1, h2, ht, b4, b5, b6] <;> omega
        · have ht : chartRiskTier (resolveType c) = codes "low" := by
            simp only [chartRiskTier]
            rw [if_neg (by simp [h1]), if_neg (by simp [h2])]
          refine Prod.ext ?_ (Prod.ext ?_ ?_) <;>
            simp [h1, h2, ht, b7, b8, b9] <;> omega

/-- C8: the risk distribution buckets clauses by the (chart) importance
tier, drops every zero bucket from the output, and on the end-to-end
scenario (one liability clause, one confidentiality clause) yields exactly
a High slice of 1 and a Medium slice of 1. -/
theorem c8_risk_distribution :
    (∀ cls : List Extraction,
        riskCounts cls
          = (cls.countP (fun c => chartRiskTier (resolveType c) == codes "high"),
             cls.countP (fun c => chartRiskTier (resolveType c) == codes "medium"),
             cls.countP (fun c => chartRiskTier (resolveType c) == codes "low"))) ∧
    (∀ (d : ChartsPayload) (e : RiskEntry), e ∈ riskData d → 0 < e.value) ∧
    riskData { langextract := some { clauses := some [
        { type := some (codes "liability_clause"),
          text := some (codes "The Liability Clause limits damages") },
        { type := some (codes "confidentiality_clause"),
          text := some (codes "The Confidentiality Clause restricts disclosure") }] } }
      = [⟨codes "High Risk", 1, codes "#ef4444"⟩, ⟨codes "Medium Risk", 1, codes "#f59e0b"⟩] := by
  refine ⟨?_, ?_, by decide⟩
  · intro cls
    unfold riskCounts
    rw [riskFold_eq_countP]
    simp
  · intro d e he
    unfold riskData at he
    split at he
    · simp at he
    · split at he
      · simp at he
      · simp only [] at he
        split at he
        · simp at he
        · simpa using (List.mem_filter.mp he).2

theorem c8_risk_distribution_witness :
    0 < (⟨codes "High Risk", 1, codes "#ef4444"⟩ : RiskEntry).value :=
  c8_risk_distribution.2.1
    { langextract := some { clauses := some [{ type := some (codes "liability_clause") }] } }
    ⟨codes "High Risk", 1, codes "#ef4444"⟩ (by decide)

/-! Span resolver lemmas. -/

theorem indexOfFrom_bounds {s pat : Str} {start i : Nat}
    (h : indexOfFrom s pat start = some i) :
    start ≤ i ∧ i ≤ s.length ∧ matchAt s pat i = true := by
  have hp := List.find?_some h
  have hm := List.mem_of_find?_eq_some h
  rw [List.mem_range] at hm
  rw [Bool.and_eq_true, decide_eq_true_eq] at hp
  exact ⟨hp.1, by omega, hp.2⟩

theorem lt_of_indexOfFrom_eq_none {s pat : Str} {start i : Nat}
    (h : indexOfFrom s pat start = none) (hi : i ≤ s.length)
    (hm : matchAt s pat i = true) : i < start := by
  rw [indexOfFrom, List.find?_eq_none] at h
  have hh := h i (by rw [List.mem_range]; omega)
  rw [Bool.and_eq_true, decide_eq_true_eq] at hh
  by_contra hcon
  exact hh ⟨by omega, hm⟩

theorem matchAt_add_le {s pat : Str} {i : Nat} (hi : i ≤ s.length)
    (h : matchAt s pat i = true) : i + pat.length ≤ s.length := by
  unfold matchAt at h
  rw [beq_iff_eq] at h
  have hlen := congrArg List.length h
  rw [List.length_take, List.length_drop] at hlen
  omega

theorem stepDisplay_bounds {text pat : Str} {cursor d : Nat}
    (h : stepDisplay text pat cursor = some d) :
    cursor ≤ d ∧ d ≤ text.length ∧ matchAt text pat d = true := by
  unfold stepDisplay at h
  cases h0 : indexOfFrom text pat 0 with
  | none => rw [h0] at h; exact absurd h (by simp)
  | some j =>
      rw [h0] at h
      obtain ⟨-, hj, hmj⟩ := indexOfFrom_bounds h0
      cases hc : indexOfFrom text pat cursor with
      | none =>
          rw [hc] at h
          simp only [Option.getD_none] at h
          split at h
          · exact absurd h (by simp)
          · obtain rfl : j = d := by injection h
            exact ⟨by omega, hj, hmj⟩
      | some i =>
          rw [hc] at h
          simp only [Option.getD_some] at h
          obtain ⟨hci, hil, hmi⟩ := indexOfFrom_bounds hc
          split at h
          · exact absurd h (by simp)
          · obtain rfl : i = d := by injection h
            exact ⟨hci, hil, hmi⟩

theorem stepDisplay_eq_none {text pat : Str} {cursor : Nat}
    (h : indexOfFrom text pat cursor = none) :
    stepDisplay text pat cursor = none := by
  unfold stepDisplay
  cases h0 : indexOfFrom text pat 0 with
  | none => rfl
  | some j =>
      obtain ⟨-, hj, hmj⟩ := indexOfFrom_bounds h0
      have hlt : j < cursor := lt_of_indexOfFrom_eq_none h hj hmj
      simp [h, hlt]

theorem renderWalk_skip (text : Str) (cursor : Nat) (c : Clause) (rest : List Clause)
    (h : indexOfFrom text c.text cursor = none) :
    renderWalk text cursor (c :: rest) = renderWalk text cursor rest := by
  simp only [renderWalk, stepDisplay_eq_none h]

theorem renderWalk_span_lb (text : Str) (cs : List Clause) : ∀ (cursor : Nat) (em : Emitted),
    em ∈ (renderWalk text cursor cs).1 →
    cursor ≤ em.span.startOffset ∧ em.span.startOffset ≤ em.span.endOffset := by
  induction cs with
  | nil => intro cursor em h; simp [renderWalk] at h
  | cons c rest ih =>
      intro cursor em h
      cases hsd : stepDisplay text c.text cursor with
      | none =>
          simp only [renderWalk, hsd] at h
          exact ih cursor em h
      | some d =>
          obtain ⟨hcd, hdl, hmd⟩ := stepDisplay_bounds hsd
          simp only [renderWalk, hsd, List.mem_cons] at h
          rcases h with rfl | h
          · exact ⟨hcd, by simp⟩
          · have := ih (d + c.text.length) em h
            exact ⟨by omega, this.2⟩

theorem renderWalk_pairwise (text : Str) (cs : List Clause) : ∀ cursor : Nat,
    ((renderWalk text cursor cs).1).Pairwise
      (fun a b => a.span.endOffset ≤ b.span.startOffset) := by
  induction cs with
  | nil => intro cursor; simp [renderWalk]
  | cons c rest ih =>
      intro cursor
      cases hsd : stepDisplay text c.text cursor with
      | none =>
          simp only [renderWalk, hsd]
          exact ih cursor
      | some d =>
          simp only [renderWalk, hsd, List.pairwise_cons]
          refine ⟨?_, ih _⟩
          intro em hm
          have hlb := (renderWalk_span_lb text rest (d + c.text.length) em hm).1
          simpa using hlb

theorem flatten_segsOf (em : Emitted) : (segsOf em).flatten = em.gap ++ em.hl := by
  unfold segsOf
  split <;> simp_all [List.isEmpty_iff]

theorem jsSubstring_glue (t : Str) (a b c : Nat) (hab : a ≤ b) (hbc : b ≤ c) :
    jsSubstring t a b ++ (jsSubstring t b c ++ t.drop c) = t.drop a := by
  unfold jsSubstring
  have h1 : (t.drop a).drop (b - a) = t.drop b := by
    rw [List.drop_drop]
    congr 1
    omega
  have h2 : (t.drop b).drop (c - b) = t.drop c := by
    rw [List.drop_drop]
    congr 1
    omega
  rw [← h2, List.take_append_drop, ← h1, List.take_append_drop]

theorem renderWalk_join (text : Str) (cs : List Clause) : ∀ cursor : Nat, cursor ≤ text.length →
    cursor ≤ (renderWalk text cursor cs).2 ∧
    (renderWalk text cursor cs).2 ≤ text.length ∧
    ((renderWalk text cursor cs).1.flatMap segsOf).flatten
        ++ text.drop (renderWalk text cursor cs).2
      = text.drop cursor := by
  induction cs with
  | nil => intro cursor h; simp [renderWalk, h]
  | cons c rest ih =>
      intro cursor hcur
      cases hsd : stepDisplay text c.text cursor with
      | none =>
          simp only [renderWalk, hsd]
          exact ih cursor hcur
      | some d =>
          obtain ⟨hcd, hdl, hmd⟩ := stepDisplay_bounds hsd
          have hstop : d + c.text.length ≤ text.length := matchAt_add_le hdl hmd
          obtain ⟨ih1, ih2, ih3⟩ := ih (d + c.text.length) hstop
          simp only [renderWalk, hsd, List.flatMap_cons, List.flatten_append, flatten_segsOf]
          refine ⟨by omega, ih2, ?_⟩
          rw [List.append_assoc, ih3, List.append_assoc]
          exact jsSubstring_glue text cursor d (d + c.text.length) hcd (by omega)

/-! C3: spans are ordered and non-overlapping; unanchorable clauses are
skipped without advancing the cursor. -/

/-- C3: for every document text, clause list and search/filter state, the
emitted highlight spans are non-overlapping and strictly left-to-right
(adjacent spans satisfy `endOffset ≤ startOffset`); and a clause whose text
has no occurrence at or after the current cursor is skipped entirely, the
walk continuing with an unchanged cursor. -/
theorem c3_span_ordering :
    (∀ (text : Str) (clauses : List Clause) (searchTerm filterType : Str),
        List.Chain' (fun a b => a.endOffset ≤ b.startOffset)
          (renderSpans text clauses searchTerm filterType)) ∧
    (∀ (text : Str) (cursor : Nat) (c : Clause) (rest : List Clause),
        indexOfFrom text c.text cursor = none →
        renderWalk text cursor (c :: rest) = renderWalk text cursor rest) := by
  constructor
  · intro text clauses searchTerm filterType
    unfold renderSpans
    have hp := renderWalk_pairwise text (sortedClauses text clauses searchTerm filterType) 0
    exact (List.pairwise_map.mpr hp).chain'
  · intro text cursor c rest h
    exact renderWalk_skip text cursor c rest h

theorem c3_span_ordering_witness :
    List.Chain' (fun a b => a.endOffset ≤ b.startOffset)
      (renderSpans (codes "abab") [⟨codes "T", codes "ab", codes "low", codes "medium", []⟩] [] []) ∧
    renderWalk (codes "abab") 3 [⟨codes "T", codes "ab", codes "low", codes "medium", []⟩]
      = renderWalk (codes "abab") 3 [] :=
  ⟨c3_span_ordering.1 (codes "abab") [⟨codes "T", codes "ab", codes "low", codes "medium", []⟩] [] [],
   c3_span_ordering.2 (codes "abab") 3 ⟨codes "T", codes "ab", codes "low", codes "medium", []⟩ []
     (by decide)⟩

/-! C10: the rendering is text-preserving. -/

/-- C10: for non-empty document text, the in-order concatenation of all
rendered segments (gaps, highlights and the trailing remainder) is exactly
the document text; skipped clauses contribute nothing. -/
theorem c10_text_preserving (text : Str) (clauses : List Clause)
    (searchTerm filterType : Str) (h : text ≠ []) :
    (renderSegments text clauses searchTerm filterType).flatten = text := by
  have hf : text.isEmpty = false := by
    cases text with
    | nil => exact absurd rfl h
    | cons a l => rfl
  unfold renderSegments
  simp only [hf, Bool.false_eq_true, if_false]
  obtain ⟨h1, h2, h3⟩ :=
    renderWalk_join text (sortedClauses text clauses searchTerm filterType) 0 (Nat.zero_le _)
  rw [List.drop_zero] at h3
  rw [List.flatten_append]
  split
  · simpa using h3
  · have hd : text.drop (renderWalk text 0 (sortedClauses text clauses searchTerm filterType)).2
        = [] := List.drop_eq_nil_of_le (by omega)
    rw [hd, List.append_nil] at h3
    simpa using h3

theorem c10_text_preserving_witness :
    (renderSegments (codes "hello world")
      [⟨codes "T", codes "world", codes "low", codes "medium", []⟩] [] []).flatten
      = codes "hello world" :=
  c10_text_preserving (codes "hello world")
    [⟨codes "T", codes "world", codes "low", codes "medium", []⟩] [] [] (by decide)

/-! C9: the entity distribution. -/

theorem keysOf_bump (m : List (Str × Nat)) (k : Str) :
    keysOf (bump m k) = if k ∈ keysOf m then keysOf m else keysOf m ++ [k] := by
  induction m with
  | nil => simp [bump, keysOf]
  | cons p rest ih =>
      obtain ⟨k', v⟩ := p
      by_cases h : k' = k
      · subst h
        simp [bump, keysOf]
      · rw [show bump ((k', v) :: rest) k = (k', v) :: bump rest k from by simp [bump, h]]
        rw [show keysOf ((k', v) :: bump rest k) = k' :: keysOf (bump rest k) from rfl]
        rw [show keysOf ((k', v) :: rest) = k' :: keysOf rest from rfl]
        rw [ih]
        by_cases hm : k ∈ keysOf rest
        · rw [if_pos hm, if_pos (List.mem_cons_of_mem k' hm)]
        · rw [if_neg hm,
            if_neg (by
              simp only [List.mem_cons, not_or]
              exact ⟨fun hh => h hh.symm, hm⟩)]
          simp

theorem nodup_keysOf_bump (m : List (Str × Nat)) (k : Str)
    (h : (keysOf m).Nodup) : (keysOf (bump m k)).Nodup := by
  rw [keysOf_bump]
  split
  · exact h
  · rename_i hk
    simp [List.nodup_append, h, hk]

theorem nodup_keys_tally (es : List NerEntity) : (keysOf (tally es)).Nodup := by
  unfold tally
  suffices hgen : ∀ acc : List (Str × Nat), (keysOf acc).Nodup →
      (keysOf (es.foldl (fun a e => bump a (entityKey e)) acc)).Nodup by
    exact hgen [] (by simp [keysOf])
  induction es with
  | nil => intro acc h; exact h
  | cons e es ih =>
      intro acc h
      rw [List.foldl_cons]
      exact ih _ (nodup_keysOf_bump _ _ h)

theorem lookupV_bump_same (m : List (Str × Nat)) (k : Str) :
    lookupV k (bump m k) = some ((lookupV k m).getD 0 + 1) := by
  induction m with
  | nil => simp [bump, lookupV]
  | cons p rest ih =>
      obtain ⟨k', v⟩ := p
      by_cases h : k' = k
      · subst h
        simp [bump, lookupV]
      · simp [bump, lookupV, h, ih]

theorem lookupV_bump_ne (m : List (Str × Nat)) (k k' : Str) (hne : k' ≠ k) :
    lookupV k' (bump m k) = lookupV k' m := by
  have hkk : ¬ k = k' := fun hh => hne hh.symm
  induction m with
  | nil => simp [bump, lookupV, hkk]
  | cons p rest ih =>
      obtain ⟨q, v⟩ := p
      by_cases h : q = k
      · subst h
        simp [bump, lookupV, hkk]
      · simp [bump, lookupV, h, ih]

theorem lookupV_eq_of_mem (m : List (Str × Nat)) (k : Str) (v : Nat)
    (hnd : (keysOf m).Nodup) (hm : (k, v) ∈ m) : lookupV k m = some v := by
  induction m with
  | nil => simp at hm
  | cons p rest ih =>
      obtain ⟨k', v'⟩ := p
      simp only [keysOf, List.map_cons, List.nodup_cons] at hnd
      rcases List.mem_cons.mp hm with heq | hm'
      · cases heq
        simp [lookupV]
      · have hk : k' ≠ k := by
          intro hh
          subst hh
          exact hnd.1 (List.mem_map_of_mem Prod.fst hm')
        simp only [lookupV, if_neg hk]
        exact ih hnd.2 hm'

theorem lookupV_foldl_bump (es : List NerEntity) : ∀ (acc : List (Str × Nat)) (k : Str),
    lookupV k (es.foldl (fun a e => bump a (entityKey e)) acc)
      = match lookupV k acc with
        | some v => some (v + es.countP (fun e => entityKey e == k))
        | none =>
            if es.countP (fun e => entityKey e == k) = 0 then none
            else some (es.countP (fun e => entityKey e == k)) := by
  induction es with
  | nil =>
      intro acc k
      cases h : lookupV k acc <;> simp [h]
  | cons e es ih =>
      intro acc k
      rw [List.foldl_cons, ih, List.countP_cons]
      by_cases hk : entityKey e = k
      · rw [hk, lookupV_bump_same]
        have h1 : (if (k == k) = true then 1 else 0) = 1 := by simp
        cases hv : lookupV k acc with
        | some v =>
            simp only [hv, Option.getD_some, h1, Option.some.injEq]
            omega
        | none =>
            simp only [hv, Option.getD_none, h1]
            rw [if_neg (by omega : ¬ es.countP (fun e => entityKey e == k) + 1 = 0)]
            simp only [Option.some.injEq]
            omega
      · rw [lookupV_bump_ne acc (entityKey e) k (fun h => hk h.symm)]
        have h0 : (if (entityKey e == k) = true then 1 else 0) = 0 := by simp [hk]
        simp only [h0, Nat.add_zero]

theorem lookupV_tally (es : List NerEntity) (k : Str) :
    lookupV k (tally es)
      = if es.countP (fun e => entityKey e == k) = 0 then none
        else some (es.countP (fun e => entityKey e == k)) := by
  unfold tally
  rw [lookupV_foldl_bump]
  simp [lookupV]

/-- C9 (amended): the entity distribution groups the raw entities by their
`label` field alone — an entity without a label lands under the coerced
property key "undefined", with no `type` fallback — counts occurrences with
duplicates retained, sorts the groups in descending order of count, and
keeps the top 10. -/
theorem c9_entity_distribution :
    (∀ d : ChartsPayload, (entityData d).Pairwise (fun a b => b.value ≤ a.value)) ∧
    (∀ d : ChartsPayload, (entityData d).length ≤ 10) ∧
    (∀ (es : List NerEntity) (k : Str) (v : Nat),
        (⟨k, v⟩ : EntityEntry) ∈ entityData { ner := some { entities := some es } } →
        v = es.countP (fun e => entityKey e == k) ∧ 0 < v) := by
  refine ⟨?_, ?_, ?_⟩
  · intro d
    unfold entityData
    split
    · simp
    · split
      · simp
      · exact List.Pairwise.sublist (List.take_sublist 10 _)
          (List.sorted_insertionSort valueDesc _)
  · intro d
    unfold entityData
    split
    · simp
    · split
      · simp
      · exact List.length_take_le 10 _
  · intro es k v hm
    simp only [entityData] at hm
    have hm1 : (⟨k, v⟩ : EntityEntry) ∈ List.insertionSort valueDesc
        ((tally es).map (fun p => (⟨p.1, p.2⟩ : EntityEntry))) :=
      List.mem_of_mem_take hm
    have hm2 : (⟨k, v⟩ : EntityEntry) ∈ (tally es).map (fun p => (⟨p.1, p.2⟩ : EntityEntry)) :=
      (List.perm_insertionSort valueDesc _).mem_iff.mp hm1
    obtain ⟨⟨k', v'⟩, hpm, heq⟩ := List.mem_map.mp hm2
    obtain ⟨rfl, rfl⟩ : k' = k ∧ v' = v := by
      simpa [EntityEntry.mk.injEq] using heq
    have hl := lookupV_eq_of_mem (tally es) k' v' (nodup_keys_tally es) hpm
    rw [lookupV_tally] at hl
    split at hl
    · exact absurd hl (by simp)
    · rename_i hcnt
      have hv : es.countP (fun e => entityKey e == k') = v' := by injection hl
      exact ⟨hv.symm, by omega⟩

theorem c9_entity_distribution_witness :
    1 = List.countP (fun e => entityKey e == codes "ORG")
          [({ text := codes "Acme", label := some (codes "ORG") } : NerEntity)] ∧ 0 < 1 :=
  c9_entity_distribution.2.2 [{ text := codes "Acme", label := some (codes "ORG") }]
    (codes "ORG") 1 (by decide)

/-- C9 counterexample: on an entity carrying only a `type` (no `label`),
the code groups under the coerced key "undefined", while the claim's
label-or-type rule would group under "ORG"; the two distributions differ. -/
theorem c9_entity_distribution_cex :
    entityData
        { ner := some { entities := some [{ text := codes "Acme", type := some (codes "ORG") }] } }
      = [⟨codes "undefined", 1⟩] ∧
    entityDataClaimed
        { ner := some { entities := some [{ text := codes "Acme", type := some (codes "ORG") }] } }
      = [⟨codes "ORG", 1⟩] ∧
    entityData
        { ner := some { entities := some [{ text := codes "Acme", type := some (codes "ORG") }] } }
      ≠ entityDataClaimed
        { ner := some { entities := some [{ text := codes "Acme", type := some (codes "ORG") }] } } := by
  refine ⟨by decide, by decide, by decide⟩

end FinInsight

